import Mathlib

/-!
Verification development for the travel-recap timeline application.

The in-browser upload pipeline (`processTimelineData`, `handleFileUpload`,
`renderMarkers` from the map script) is embedded shallowly below: JSON values
become an inductive type, JavaScript property access / truthiness / thrown
`TypeError`s become explicit functions and an `Except` monad, and the builtin
`parseFloat` is modelled over rationals.  The analytics engine the design
document describes (geometry kernel, place deduplicator, stats aggregator) is
not part of the shipped sources; those parts are modelled from the spec and
are marked as such in their doc comments.
-/

namespace TravelRecap

/-- A parsed JSON value, the result of a successful `JSON.parse`.  Object
fields are kept in insertion order with unique keys (as produced by
`JSON.parse`, where a later duplicate key overwrites an earlier one). -/
inductive Json where
  | null
  | bool (b : Bool)
  | num (q : ℚ)
  | str (s : String)
  | arr (xs : List Json)
  | obj (kvs : List (String × Json))

/-- First binding of a key in an object's field list (keys are unique). -/
def jsLookup : List (String × Json) → String → Option Json
  | [], _ => none
  | (k, v) :: rest, key => if k = key then some v else jsLookup rest key

/-- JavaScript property access `j.k` on a non-`null` value: a field of an
object, and `undefined` (modelled as `none`) on primitives and arrays, whose
built-in properties are never named by the source.  Access on `null` throws
and is handled separately by the callers. -/
def propGet : Json → String → Option Json
  | .obj kvs, k => jsLookup kvs k
  | _, _ => none

/-- JavaScript truthiness of a value.  (`NaN`, which is also falsy, does not
occur: the model's numbers are rationals.) -/
def truthy : Json → Bool
  | .null => false
  | .bool b => b
  | .num q => q != 0
  | .str s => s != ""
  | .arr _ => true
  | .obj _ => true

/-- Truthiness of a possibly-`undefined` value (`none` is `undefined`). -/
def truthyOpt : Option Json → Bool
  | none => false
  | some v => truthy v

/-- The value of `j.k` when it is truthy, else `none`: this is exactly what a
JavaScript `if (j.k)` guard observes on a non-`null` `j`. -/
def truthyProp (j : Json) (k : String) : Option Json :=
  match propGet j k with
  | some v => if truthy v then some v else none
  | none => none

/-- Discriminator for the JavaScript `null` value. -/
def isNull : Json → Bool
  | .null => true
  | _ => false

/-- Whether a parsed JSON value is an object literal. -/
def isObj : Json → Bool
  | .obj _ => true
  | _ => false

/-- Value of a digit string, most significant first. -/
def digitsToNat (cs : List Char) : ℕ :=
  cs.foldl (fun n c => 10 * n + (c.toNat - 48)) 0

/-- Exponent suffix of a JavaScript float literal: `e`/`E`, an optional sign
and at least one digit; `none` when the characters do not start such a
suffix (in which case `parseFloat` ignores them). -/
def parseExpSuffix (cs : List Char) : Option ℤ :=
  match cs with
  | [] => none
  | c :: rest =>
    if c = 'e' ∨ c = 'E' then
      match rest with
      | '+' :: r => if (r.takeWhile Char.isDigit).isEmpty then none
                    else some (digitsToNat (r.takeWhile Char.isDigit))
      | '-' :: r => if (r.takeWhile Char.isDigit).isEmpty then none
                    else some (-(digitsToNat (r.takeWhile Char.isDigit) : ℤ))
      | r => if (r.takeWhile Char.isDigit).isEmpty then none
             else some (digitsToNat (r.takeWhile Char.isDigit))
    else none

/-- The builtin `parseFloat`, modelled over rationals: leading whitespace is
skipped, an optional sign, then the longest prefix shaped like
`digits [. digits] [e[sign]digits]` (at least one digit before or after the
dot); trailing garbage is ignored; `none` models `NaN`.  The `Infinity`
literal, which has no rational counterpart, is not modelled. -/
def parseFloatChars (cs0 : List Char) : Option ℚ :=
  let cs1 := cs0.dropWhile Char.isWhitespace
  let isNeg : Bool := match cs1 with
    | '-' :: _ => true
    | _ => false
  let cs2 : List Char := match cs1 with
    | '-' :: r => r
    | '+' :: r => r
    | _ => cs1
  let ip := cs2.takeWhile Char.isDigit
  let rest1 := cs2.dropWhile Char.isDigit
  let fp : List Char := match rest1 with
    | '.' :: r => r.takeWhile Char.isDigit
    | _ => []
  let rest2 : List Char := match rest1 with
    | '.' :: r => r.dropWhile Char.isDigit
    | _ => rest1
  if ip.isEmpty ∧ fp.isEmpty then none
  else
    let mant : ℚ :=
      if fp.isEmpty then (digitsToNat ip : ℚ)
      else (digitsToNat ip : ℚ) + (digitsToNat fp : ℚ) / (10 : ℚ) ^ fp.length
    let q : ℚ := match parseExpSuffix rest2 with
      | some e => if e < 0 then mant / (10 : ℚ) ^ e.natAbs else mant * (10 : ℚ) ^ e.natAbs
      | none => mant
    some (if isNeg then -q else q)

/-- `parseFloat` on a (JavaScript) string. -/
def parseFloat (s : String) : Option ℚ :=
  parseFloatChars s.data

/-- `str.replace(/°/g, '')`: all degree signs removed. -/
def stripDegrees (cs : List Char) : List Char :=
  cs.filter (fun c => c ≠ '°')

/-- `str.split(',')`: the comma-separated pieces, with empty pieces kept
(`"".split(',')` is `[""]`). -/
def splitComma : List Char → List (List Char)
  | [] => [[]]
  | c :: rest =>
    if c = ',' then [] :: splitComma rest
    else
      match splitComma rest with
      | h :: t => (c :: h) :: t
      | [] => [[c]]

/-- `str.trim()`: leading and trailing whitespace removed. -/
def trimChars (cs : List Char) : List Char :=
  ((cs.dropWhile Char.isWhitespace).reverse.dropWhile Char.isWhitespace).reverse

/-- The coordinate parse of `processTimelineData`: degree signs stripped, the
string split on commas, and both parts trimmed and fed to `parseFloat`; a
pair is produced exactly when the split yields exactly two parts and neither
parse is `NaN`.  No range check is performed. -/
def parsePair (s : String) : Option (ℚ × ℚ) :=
  match splitComma (stripDegrees s.data) with
  | [p0, p1] =>
    match parseFloatChars (trimChars p0), parseFloatChars (trimChars p1) with
    | some la, some ln => some (la, ln)
    | _, _ => none
  | _ => none

/-- One record of `allLocations`, as pushed by `processTimelineData`.  The
code stores no `endTime` field; reading one downstream yields `undefined`. -/
structure Location where
  lat : ℚ
  lng : ℚ
  startTime : Option Json
  address : Option Json
  name : Option Json
  probability : Option Json

/-- A thrown JavaScript error (the only kind the pipeline can raise is a
`TypeError`, from property access on `null` or a missing method). -/
inductive JsErr where
  | typeError

/-- The innermost stage of the `if (segment.visit)` branch, once the guard
chain has reached a truthy `placeLocation`: the `latLng` guard, the
coordinate parse, and the pushed record.  A truthy `latLng` that is not a
string throws (`.replace` is not a function).  `st` is `segment.startTime`,
read only when a record is pushed. -/
def processPl (visit pl : Json) (st : Option Json) : Except JsErr (Option Location) :=
  match truthyProp pl "latLng" with
  | none => .ok none
  | some (.str s) =>
    match parsePair s with
    | some (la, ln) =>
      .ok (some { lat := la, lng := ln, startTime := st,
                  address := propGet pl "address", name := propGet pl "name",
                  probability := propGet visit "probability" })
    | none => .ok none
  | some _ => .error .typeError

/-- The body of the `if (segment.visit)` branch: the guard chain
`visit.topCandidate && visit.topCandidate.placeLocation && …latLng`
followed by the coordinate stage. -/
def processVisit (visit : Json) (st : Option Json) : Except JsErr (Option Location) :=
  match truthyProp visit "topCandidate" with
  | none => .ok none
  | some tc =>
    match truthyProp tc "placeLocation" with
    | none => .ok none
    | some pl => processPl visit pl st

/-- Processing of one element of `semanticSegments`: `segment.visit` throws on
a `null` segment; a falsy or absent `visit` is skipped; otherwise the visit
body runs with `segment.startTime` at hand. -/
def processSegment (seg : Json) : Except JsErr (Option Location) :=
  if isNull seg then .error .typeError
  else
    match truthyProp seg "visit" with
    | none => .ok none
    | some visit => processVisit visit (propGet seg "startTime")

/-- `data.semanticSegments || []` followed by `.forEach`: property access on a
`null` document throws; a falsy field defaults to the empty list; a truthy
non-array value throws when `.forEach` is called on it. -/
def getSegments (data : Json) : Except JsErr (List Json) :=
  if isNull data then .error .typeError
  else
    match truthyProp data "semanticSegments" with
    | none => .ok []
    | some (.arr xs) => .ok xs
    | some _ => .error .typeError

/-- The `forEach` loop with its push accumulator: segments processed in
document order, records appended in order, the first thrown error aborting
the walk. -/
def runSegments : List Json → List Location → Except JsErr (List Location)
  | [], acc => .ok acc
  | s :: rest, acc =>
    match processSegment s with
    | .error e => .error e
    | .ok none => runSegments rest acc
    | .ok (some loc) => runSegments rest (acc ++ [loc])

/-- `processTimelineData`: the full normalisation pass over an uploaded,
already-parsed document, producing the `allLocations` list or the error the
walk threw. -/
def processTimelineData (data : Json) : Except JsErr (List Location) :=
  match getSegments data with
  | .error e => .error e
  | .ok segs => runSegments segs []

/-- The record a single segment contributes, if any: `none` both when the
segment is skipped and when processing it would throw. -/
def extractLoc (seg : Json) : Option Location :=
  match processSegment seg with
  | .ok o => o
  | .error _ => none

/-- Outcome `handleFileUpload` shows for an uploaded file: the error status
(shown when `JSON.parse` or `processTimelineData` throws, both caught by the
surrounding `try`) or the loaded visit list. -/
inductive UploadOutcome where
  | errorStatus
  | loaded (locs : List Location)

/-- `handleFileUpload` on a read file: `none` models content `JSON.parse`
rejects; every throw inside the `try` block surfaces as the error status and
never propagates to the caller. -/
def handleFileUpload (content : Option Json) : UploadOutcome :=
  match content with
  | none => .errorStatus
  | some j =>
    match processTimelineData j with
    | .error _ => .errorStatus
    | .ok locs => .loaded locs

/-- The year-filter predicate of `renderMarkers`: a falsy `startTime` is
rejected outright; otherwise the record is kept exactly when
`new Date(loc.startTime).getFullYear()` equals the selected year.  `getYear`
abstracts that builtin date conversion, `none` modelling an invalid date
(`NaN`, which compares unequal to every year). -/
def yearKeeps (getYear : Json → Option ℤ) (y : ℤ) (loc : Location) : Bool :=
  match loc.startTime with
  | none => false
  | some t => truthy t && (getYear t == some y)

/-- The list of markers `renderMarkers` draws: all loaded locations when no
year is selected, the year-filtered ones otherwise. -/
def renderList (getYear : Json → Option ℤ) (selectedYear : Option ℤ)
    (locs : List Location) : List Location :=
  match selectedYear with
  | none => locs
  | some y => locs.filter (yearKeeps getYear y)

/-- A geographic coordinate in degrees. -/
structure Coord where
  lat : ℝ
  lng : ℝ

/-- Modelled from the spec: the fixed Earth radius constant of the geometry
kernel (meters); the kernel itself is absent from the shipped sources. -/
noncomputable def earthRadius : ℝ := 6371000

/-- Degrees to radians. -/
noncomputable def toRad (d : ℝ) : ℝ := d * Real.pi / 180

/-- Modelled from the spec: the haversine term of the great-circle distance. -/
noncomputable def hav (a b : Coord) : ℝ :=
  Real.sin (toRad (b.lat - a.lat) / 2) ^ 2 +
    Real.cos (toRad a.lat) * Real.cos (toRad b.lat) *
      Real.sin (toRad (b.lng - a.lng) / 2) ^ 2

/-- Modelled from the spec: the geometry kernel's great-circle (haversine)
distance in meters, using the fixed Earth radius. -/
noncomputable def haversineDist (a b : Coord) : ℝ :=
  2 * earthRadius * Real.arcsin (Real.sqrt (hav a b))

/-- Modelled from the spec: a normalized visit as consumed by the place
deduplicator — a coordinate plus the optional stable place identifier. -/
structure Visit where
  lat : ℝ
  lng : ℝ
  sourcePlaceId : Option String

/-- The coordinate of a visit. -/
def Visit.coord (v : Visit) : Coord := ⟨v.lat, v.lng⟩

/-- Modelled from the spec: the deduplicator's proximity threshold (meters),
"a configurable radius, default on the order of 100 meters". -/
noncomputable def proximityThreshold : ℝ := 100

/-- Whether two visits carry the same non-null `sourcePlaceId`. -/
def sameId (a b : Visit) : Bool :=
  match a.sourcePlaceId, b.sourcePlaceId with
  | some s, some t => s == t
  | _, _ => false

/-- Whether two visits carry conflicting (non-null and different)
`sourcePlaceId`s. -/
def idConflict (a b : Visit) : Bool :=
  match a.sourcePlaceId, b.sourcePlaceId with
  | some s, some t => s != t
  | _, _ => false

/-- Modelled from the spec: the deduplicator's direct merge test — a shared
non-null `sourcePlaceId`, or coordinates within the proximity threshold
provided no `sourcePlaceId` conflict exists between the pair. -/
noncomputable def nearVisit (a b : Visit) : Bool :=
  sameId a b ||
    (!idConflict a b && decide (haversineDist a.coord b.coord ≤ proximityThreshold))

/-- Whether a new visit links directly to some member of a cluster. -/
def touches (near : Visit → Visit → Bool) (v : Visit) (p : List Visit) : Bool :=
  p.any (near v)

/-- Modelled from the spec: one insertion step of single-linkage clustering.
The new visit joins the first cluster it links to; every other linked
cluster is folded into that one (merging is transitive through direct
pairwise links); an unlinked visit founds a new cluster at the end, keeping
clusters in first-appearance order of their founding visit. -/
def mergeStep (near : Visit → Visit → Bool) (v : Visit) :
    List (List Visit) → List (List Visit)
  | [] => [[v]]
  | p :: ps =>
    if touches near v p then
      (p ++ (ps.filter (touches near v)).flatten ++ [v]) ::
        ps.filter (fun q => !touches near v q)
    else
      p :: mergeStep near v ps

/-- Modelled from the spec: single-linkage clustering of the visit sequence
over an arbitrary direct-link test, visits processed in input order. -/
def dedupeWith (near : Visit → Visit → Bool) (vs : List Visit) : List (List Visit) :=
  vs.foldl (fun acc v => mergeStep near v acc) []

/-- Modelled from the spec: a deduplicated place — the arithmetic mean of the
member coordinates as representative, plus the member visits in order. -/
structure Place where
  repLat : ℝ
  repLng : ℝ
  visits : List Visit

/-- A place built from one cluster of visits. -/
noncomputable def mkPlace (p : List Visit) : Place :=
  ⟨(p.map Visit.lat).sum / p.length, (p.map Visit.lng).sum / p.length, p⟩

/-- Modelled from the spec: `dedupe`, the place deduplicator — single-linkage
clustering under the shared-identifier / proximity link, each cluster turned
into a place. -/
noncomputable def dedupe (vs : List Visit) : List Place :=
  (dedupeWith nearVisit vs).map mkPlace

/-- Modelled from the spec: a movement segment's contribution to the totals;
only the distance is consumed by the aggregates the claims mention. -/
structure MovementSegment where
  distanceMeters : ℝ

/-- Modelled from the spec: the single fixed emissions-factor constant
(kg CO2 per meter traveled); the spec documents it as one global constant,
not mode-specific, without fixing its value. -/
noncomputable def emissionsFactor : ℝ := 12 / 100000

/-- Total distance: the sum of all movement-segment distances. -/
noncomputable def totalDistanceOf (ms : List MovementSegment) : ℝ :=
  (ms.map MovementSegment.distanceMeters).sum

/-- Modelled from the spec: the aggregate output bundle, restricted to the
fields the claims mention. -/
structure StatsBundle where
  totalDistance : ℝ
  placeCount : ℕ
  countryCount : ℕ
  carbonKg : ℝ

/-- Modelled from the spec: the stats aggregator.  Total distance is the sum
of movement distances, unique places the place count, unique countries the
count of distinct non-null resolver answers over representative coordinates,
and the carbon estimate the total distance times the fixed emissions factor. -/
noncomputable def aggregate (resolve : Coord → Option String)
    (movements : List MovementSegment) (places : List Place) : StatsBundle :=
  { totalDistance := totalDistanceOf movements
    placeCount := places.length
    countryCount :=
      ((places.filterMap (fun p => resolve ⟨p.repLat, p.repLng⟩)).dedup).length
    carbonKg := totalDistanceOf movements * emissionsFactor }

/-- Modelled from the spec: movement extraction — a segment qualifies when it
carries a truthy `activity` shape with an explicit numeric distance (a
number, or a string `parseFloat` accepts). -/
noncomputable def extractMovement (seg : Json) : Option MovementSegment :=
  match truthyProp seg "activity" with
  | none => none
  | some act =>
    match propGet act "distanceMeters" with
    | some (.num q) => some ⟨(q : ℝ)⟩
    | some (.str s) => (parseFloat s).map (fun q => ⟨(q : ℝ)⟩)
    | _ => none

/-- A normalized location record viewed as a deduplicator visit; the shipped
normalizer extracts no place identifier, so `sourcePlaceId` is `none`. -/
noncomputable def locVisit (l : Location) : Visit :=
  ⟨(l.lat : ℝ), (l.lng : ℝ), none⟩

/-- Modelled from the spec: the engine facade `analyze` — normalisation (the
shipped `processTimelineData` walk), then deduplication, then aggregation,
returning the visit list, the places and the stats bundle, or the single
fatal error of an unrecoverable input. -/
noncomputable def analyze (resolve : Coord → Option String) (data : Json) :
    Except JsErr (List Location × List Place × StatsBundle) :=
  match getSegments data with
  | .error e => .error e
  | .ok segs =>
    match runSegments segs [] with
    | .error e => .error e
    | .ok locs =>
      let movements := segs.filterMap extractMovement
      let places := dedupe (locs.map locVisit)
      .ok (locs, places, aggregate resolve movements places)

/-- The three ways the guard chain of a visit segment can come out: some link
missing or falsy, a truthy string `latLng`, or a truthy non-string `latLng`. -/
inductive ChainRes where
  | missing
  | strVal (s : String)
  | nonString

/-- The `latLng` guard's outcome at a truthy `placeLocation`. -/
def plChain (pl : Json) : ChainRes :=
  match truthyProp pl "latLng" with
  | none => .missing
  | some (.str s) => .strVal s
  | some _ => .nonString

/-- The guard chain's outcome from a truthy `topCandidate` down. -/
def tcChain (tc : Json) : ChainRes :=
  match truthyProp tc "placeLocation" with
  | none => .missing
  | some pl => plChain pl

/-- The guard chain's outcome from a truthy `visit` down. -/
def visitChain (visit : Json) : ChainRes :=
  match truthyProp visit "topCandidate" with
  | none => .missing
  | some tc => tcChain tc

/-- The outcome of the guard chain
`segment.visit && …topCandidate && …placeLocation && …latLng` on a non-null
segment. -/
def chainOf (seg : Json) : ChainRes :=
  match truthyProp seg "visit" with
  | none => .missing
  | some visit => visitChain visit

/-- The truthy `placeLocation` reached from a truthy `visit`, when present. -/
def plOfVisit (visit : Json) : Option Json :=
  (truthyProp visit "topCandidate").bind fun tc => truthyProp tc "placeLocation"

/-- Characterisation of the coordinate stage: the `latLng` guard decides
everything — a missing link skips, a truthy non-string coordinate throws,
and a truthy string is range-checked by nothing at all: whatever pair
`parsePair` yields is recorded verbatim. -/
lemma processPl_chain (visit pl : Json) (st : Option Json) :
    processPl visit pl st =
      match plChain pl with
      | .missing => .ok none
      | .nonString => .error .typeError
      | .strVal s =>
        match parsePair s with
        | none => .ok none
        | some (la, ln) =>
          .ok (some { lat := la, lng := ln, startTime := st,
                      address := propGet pl "address", name := propGet pl "name",
                      probability := propGet visit "probability" }) := by
  unfold processPl plChain
  cases h : truthyProp pl "latLng" with
  | none => rfl
  | some ll =>
    cases ll with
    | null => rfl
    | bool b => rfl
    | num q => rfl
    | arr xs => rfl
    | obj kvs => rfl
    | str s =>
      show (match parsePair s with
            | some (la, ln) =>
              (Except.ok (some (Location.mk la ln st (propGet pl "address")
                (propGet pl "name") (propGet visit "probability"))) :
                  Except JsErr (Option Location))
            | none => Except.ok none) =
          (match parsePair s with
            | none => Except.ok none
            | some (la, ln) =>
              Except.ok (some (Location.mk la ln st (propGet pl "address")
                (propGet pl "name") (propGet visit "probability"))))
      cases h5 : parsePair s with
      | none => rfl
      | some p => cases p with | mk la ln => rfl

/-- Characterisation of the visit body in terms of the guard chain. -/
lemma processVisit_chain (visit : Json) (st : Option Json) :
    processVisit visit st =
      match visitChain visit with
      | .missing => .ok none
      | .nonString => .error .typeError
      | .strVal s =>
        match parsePair s with
        | none => .ok none
        | some (la, ln) =>
          .ok (some { lat := la, lng := ln, startTime := st,
                      address := (plOfVisit visit).bind fun pl => propGet pl "address",
                      name := (plOfVisit visit).bind fun pl => propGet pl "name",
                      probability := propGet visit "probability" }) := by
  unfold processVisit visitChain plOfVisit
  cases h1 : truthyProp visit "topCandidate" with
  | none => rfl
  | some tc =>
    show (match truthyProp tc "placeLocation" with
          | none => Except.ok none
          | some pl => processPl visit pl st) =
        (match tcChain tc with
          | .missing => Except.ok none
          | .nonString => Except.error .typeError
          | .strVal s =>
            match parsePair s with
            | none => Except.ok none
            | some (la, ln) =>
              Except.ok (some (Location.mk la ln st
                ((truthyProp tc "placeLocation").bind fun pl => propGet pl "address")
                ((truthyProp tc "placeLocation").bind fun pl => propGet pl "name")
                (propGet visit "probability"))))
    unfold tcChain
    cases h2 : truthyProp tc "placeLocation" with
    | none => rfl
    | some pl => exact processPl_chain visit pl st

/-- Master characterisation of one segment's processing on a non-null
segment, in terms of the guard chain and the coordinate parse. -/
lemma processSegment_chain (seg : Json) (hn : isNull seg = false) :
    processSegment seg =
      match chainOf seg with
      | .missing => .ok none
      | .nonString => .error .typeError
      | .strVal s =>
        match parsePair s with
        | none => .ok none
        | some (la, ln) =>
          .ok (some { lat := la, lng := ln,
                      startTime := propGet seg "startTime",
                      address := ((truthyProp seg "visit").bind plOfVisit).bind
                        fun pl => propGet pl "address",
                      name := ((truthyProp seg "visit").bind plOfVisit).bind
                        fun pl => propGet pl "name",
                      probability := (truthyProp seg "visit").bind
                        fun v => propGet v "probability" }) := by
  unfold processSegment chainOf
  rw [hn]
  cases h1 : truthyProp seg "visit" with
  | none => rfl
  | some visit => exact processVisit_chain visit (propGet seg "startTime")

/-- A non-null segment with a missing/falsy guard chain is skipped quietly. -/
lemma processSegment_of_missing (seg : Json) (hn : isNull seg = false)
    (hc : chainOf seg = .missing) : processSegment seg = .ok none := by
  rw [processSegment_chain seg hn, hc]

/-- A non-null segment with a truthy non-string `latLng` throws. -/
lemma processSegment_of_nonString (seg : Json) (hn : isNull seg = false)
    (hc : chainOf seg = .nonString) : processSegment seg = .error .typeError := by
  rw [processSegment_chain seg hn, hc]

/-- A non-null segment with a truthy string `latLng` is decided entirely by
the coordinate parse. -/
lemma processSegment_of_strVal (seg : Json) (s : String) (hn : isNull seg = false)
    (hc : chainOf seg = .strVal s) :
    processSegment seg =
      match parsePair s with
      | none => .ok none
      | some (la, ln) =>
        .ok (some { lat := la, lng := ln,
                    startTime := propGet seg "startTime",
                    address := ((truthyProp seg "visit").bind plOfVisit).bind
                      fun pl => propGet pl "address",
                    name := ((truthyProp seg "visit").bind plOfVisit).bind
                      fun pl => propGet pl "name",
                    probability := (truthyProp seg "visit").bind
                      fun v => propGet v "probability" }) := by
  rw [processSegment_chain seg hn, hc]

/-- A `null` segment throws the moment `.visit` is read. -/
lemma processSegment_null : processSegment Json.null = .error .typeError := rfl

/-- The segment walk, on success, returns the accumulator followed by the
per-segment extractions in document order. -/
lemma runSegments_ok : ∀ (segs : List Json) (acc locs : List Location),
    runSegments segs acc = .ok locs → locs = acc ++ segs.filterMap extractLoc := by
  intro segs
  induction segs with
  | nil =>
    intro acc locs h
    simp only [runSegments] at h
    injection h with h
    simp [h]
  | cons s rest ih =>
    intro acc locs h
    simp only [runSegments] at h
    cases hps : processSegment s with
    | error e => rw [hps] at h; exact nomatch h
    | ok o =>
      rw [hps] at h
      cases o with
      | none =>
        rw [ih acc locs h]
        simp [List.filterMap_cons, extractLoc, hps]
      | some loc =>
        rw [ih (acc ++ [loc]) locs h]
        simp [List.filterMap_cons, extractLoc, hps]

/-- A successful normalisation pass is exactly the ordered `filterMap` of the
per-segment extraction over the segment list. -/
lemma processTimelineData_ok (data : Json) (segs : List Json) (locs : List Location)
    (hs : getSegments data = .ok segs) (hp : processTimelineData data = .ok locs) :
    locs = segs.filterMap extractLoc := by
  unfold processTimelineData at hp
  rw [hs] at hp
  simpa using runSegments_ok segs [] locs hp

/-- Length of a `filterMap` as a count of producing elements. -/
lemma filterMap_length_eq_countP (f : Json → Option Location) (l : List Json) :
    (l.filterMap f).length = l.countP (fun s => (f s).isSome) := by
  induction l with
  | nil => rfl
  | cons a l ih =>
    cases hfa : f a <;> simp [List.filterMap_cons, hfa, List.countP_cons, ih]

/-- The startTime argument is copied verbatim into the record and plays no
part in whether the coordinate stage produces a record or throws. -/
lemma processPl_startTime (visit pl : Json) (st : Option Json) :
    processPl visit pl st =
      Except.map (Option.map (fun loc => { loc with startTime := st }))
        (processPl visit pl none) := by
  unfold processPl
  cases h : truthyProp pl "latLng" with
  | none => rfl
  | some ll =>
    cases ll with
    | null => rfl
    | bool b => rfl
    | num q => rfl
    | arr xs => rfl
    | obj kvs => rfl
    | str s =>
      show (match parsePair s with
            | some (la, ln) =>
              (Except.ok (some (Location.mk la ln st (propGet pl "address")
                (propGet pl "name") (propGet visit "probability"))) :
                  Except JsErr (Option Location))
            | none => Except.ok none) =
          Except.map (Option.map (fun loc => { loc with startTime := st }))
            (match parsePair s with
            | some (la, ln) =>
              Except.ok (some (Location.mk la ln none (propGet pl "address")
                (propGet pl "name") (propGet visit "probability")))
            | none => Except.ok none)
      cases h5 : parsePair s with
      | none => rfl
      | some p => cases p with | mk la ln => rfl

/-- The segment-level startTime is copied verbatim into the record and plays
no part in whether the record is produced. -/
lemma processVisit_startTime (visit : Json) (st : Option Json) :
    processVisit visit st =
      Except.map (Option.map (fun loc => { loc with startTime := st }))
        (processVisit visit none) := by
  unfold processVisit
  cases h1 : truthyProp visit "topCandidate" with
  | none => rfl
  | some tc =>
    show (match truthyProp tc "placeLocation" with
          | none => Except.ok none
          | some pl => processPl visit pl st) =
        Except.map (Option.map (fun loc => { loc with startTime := st }))
          (match truthyProp tc "placeLocation" with
          | none => Except.ok none
          | some pl => processPl visit pl none)
    cases h2 : truthyProp tc "placeLocation" with
    | none => rfl
    | some pl => exact processPl_startTime visit pl st

/-- A produced record's `startTime` is the `st` argument it was built with. -/
lemma processVisit_ok_startTime (visit : Json) (st : Option Json) (loc : Location)
    (h : processVisit visit st = .ok (some loc)) : loc.startTime = st := by
  rw [processVisit_startTime visit st] at h
  cases hv : processVisit visit none with
  | error e => rw [hv] at h; exact nomatch h
  | ok o =>
    rw [hv] at h
    cases o with
    | none => simp [Except.map] at h
    | some loc0 =>
      simp [Except.map] at h
      rw [← h]

/-- A well-formed visit segment at latitude 40, longitude 75, with no
`startTime` field. -/
def segNYC : Json :=
  .obj [("visit", .obj [("topCandidate", .obj [("placeLocation",
    .obj [("latLng", .str "40°, 75°")])])])]

/-- The record `segNYC` produces. -/
def locNYC : Location :=
  { lat := 40, lng := 75, startTime := none, address := none, name := none,
    probability := none }

/-- An export with a duplicated qualifying segment. -/
def dataDup : Json := .obj [("semanticSegments", .arr [segNYC, segNYC])]

/-- A visit segment with an out-of-range latitude of 95 degrees. -/
def seg95 : Json :=
  .obj [("visit", .obj [("topCandidate", .obj [("placeLocation",
    .obj [("latLng", .str "95°, 10°")])])])]

/-- An export whose only segment has latitude 95. -/
def data95 : Json := .obj [("semanticSegments", .arr [seg95])]

/-- A visit segment whose coordinate string fails the numeric parse. -/
def segBadParse : Json :=
  .obj [("visit", .obj [("topCandidate", .obj [("placeLocation",
    .obj [("latLng", .str "oops")])])])]

/-- A visit segment whose `latLng` is a truthy non-string. -/
def segNonStr : Json :=
  .obj [("visit", .obj [("topCandidate", .obj [("placeLocation",
    .obj [("latLng", .num 5)])])])]

/-- An export containing a `null` segment. -/
def dataNullSeg : Json := .obj [("semanticSegments", .arr [Json.null])]

/-- A date reading under which every timestamp is an invalid date. -/
def noYear : Json → Option ℤ := fun _ => none

/-- A country resolver that never answers. -/
def resolveNone : Coord → Option String := fun _ => none

/-- C1 counterexample: the export whose single visit segment has latitude 95
(out of range) is NOT skipped — `processTimelineData` returns that very
record, and the code computes no skipped count at all, contradicting the
claim that such a segment is excluded with a reported skip count of 1. -/
theorem c1_counterexample :
    processTimelineData data95 =
      .ok [{ lat := 95, lng := 10, startTime := none, address := none,
             name := none, probability := none }] ∧
    (90 : ℚ) < 95 := ⟨rfl, by norm_num⟩

/-- C1 amended: out-of-range coordinate values are not skipped — any segment
whose coordinate string parses to a numeric pair yields a record with exactly
those values, whatever their range; only structural parse failures (missing
guard chain, wrong part count, non-numeric part) skip, and such a skip drops
only its own segment: a successful run is the ordered per-segment
`filterMap`, so every other segment's record is still present.  No skipped
count is computed anywhere. -/
theorem c1_amended_no_range_check :
    (∀ data segs locs, getSegments data = .ok segs →
      processTimelineData data = .ok locs → locs = segs.filterMap extractLoc) ∧
    (∀ seg s la ln, isNull seg = false → chainOf seg = .strVal s →
      parsePair s = some (la, ln) →
      ∃ loc, processSegment seg = .ok (some loc) ∧ loc.lat = la ∧ loc.lng = ln) ∧
    (∀ seg s, isNull seg = false → chainOf seg = .strVal s → parsePair s = none →
      processSegment seg = .ok none) := by
  refine ⟨processTimelineData_ok, ?_, ?_⟩
  · intro seg s la ln hn hc hp
    rw [processSegment_of_strVal seg s hn hc, hp]
    exact ⟨_, rfl, rfl, rfl⟩
  · intro seg s hn hc hp
    rw [processSegment_of_strVal seg s hn hc, hp]

/-- C1 witness: the latitude-95 segment is included with its out-of-range
value, a non-parsing segment is skipped without error, and the run over the
latitude-95 export is its per-segment extraction. -/
theorem c1_amended_witness :
    (∃ loc, processSegment seg95 = .ok (some loc) ∧ loc.lat = 95 ∧ loc.lng = 10) ∧
    processSegment segBadParse = .ok none ∧
    ([{ lat := 95, lng := 10, startTime := none, address := none, name := none,
        probability := none }] : List Location) = [seg95].filterMap extractLoc :=
  ⟨c1_amended_no_range_check.2.1 seg95 "95°, 10°" 95 10 rfl rfl rfl,
   c1_amended_no_range_check.2.2 segBadParse "oops" rfl rfl rfl,
   c1_amended_no_range_check.1 data95 [seg95] _ rfl rfl⟩

/-- C2 counterexample: the number 5 is valid JSON but not an object, yet the
upload handler reports success with zero visits instead of the explicit
failure the claim requires. -/
theorem c2_counterexample :
    handleFileUpload (some (Json.num 5)) = .loaded [] ∧
    isObj (Json.num 5) = false ∧
    handleFileUpload (some (Json.num 5)) ≠ .errorStatus :=
  ⟨rfl, rfl, fun h => nomatch h⟩

/-- C2 amended: the handler surfaces its failure status exactly when the
content is not parseable as JSON or the timeline walk itself throws (a null
document, a truthy non-array `semanticSegments`, a null segment, or a truthy
non-string coordinate); every other input — including valid JSON that is not
an object — degrades to a loaded (possibly empty) visit list, and no thrown
failure ever reaches the caller: every input yields one of the two
statuses. -/
theorem c2_amended_failure_iff (c : Option Json) :
    (handleFileUpload c = .errorStatus ↔
      c = none ∨ ∃ j e, c = some j ∧ processTimelineData j = .error e) ∧
    (handleFileUpload c = .errorStatus ∨ ∃ locs, handleFileUpload c = .loaded locs) := by
  cases c with
  | none => exact ⟨by simp [handleFileUpload], Or.inl rfl⟩
  | some j =>
    cases h : processTimelineData j with
    | error e =>
      refine ⟨⟨fun _ => Or.inr ⟨j, e, rfl, h⟩, fun _ => ?_⟩, Or.inl ?_⟩ <;>
        simp [handleFileUpload, h]
    | ok locs =>
      refine ⟨⟨fun hh => absurd hh ?_, ?_⟩, Or.inr ⟨locs, ?_⟩⟩
      · simp [handleFileUpload, h]
      · rintro (hnone | ⟨j2, e2, hj2, he2⟩)
        · exact nomatch hnone
        · injection hj2 with hj2
          subst hj2
          rw [he2] at h
          exact nomatch h
      · simp [handleFileUpload, h]

/-- C2 witness: the amended dichotomy at the non-object input 5. -/
theorem c2_amended_witness :
    handleFileUpload (some (Json.num 5)) = .errorStatus ∨
    ∃ locs, handleFileUpload (some (Json.num 5)) = .loaded locs :=
  (c2_amended_failure_iff (some (Json.num 5))).2

/-- C4: a successful normalisation pass emits exactly the per-segment
extraction in document order — `filterMap` preserves input order and keeps
one record per qualifying segment, so identical qualifying segments each
yield their own record and no deduplication happens; the record count is the
count of qualifying segments. -/
theorem c4_order_and_no_dedup (data : Json) (segs : List Json) (locs : List Location)
    (hs : getSegments data = .ok segs) (hp : processTimelineData data = .ok locs) :
    locs = segs.filterMap extractLoc ∧
    locs.length = segs.countP (fun s => (extractLoc s).isSome) := by
  have h := processTimelineData_ok data segs locs hs hp
  exact ⟨h, by rw [h, filterMap_length_eq_countP]⟩

/-- C4 witness: an export with the same qualifying segment twice yields two
identical records, in order, one per segment. -/
theorem c4_witness :
    processTimelineData dataDup = .ok [locNYC, locNYC] ∧
    [locNYC, locNYC] = [segNYC, segNYC].filterMap extractLoc ∧
    ([locNYC, locNYC] : List Location).length =
      [segNYC, segNYC].countP (fun s => (extractLoc s).isSome) :=
  ⟨rfl,
   (c4_order_and_no_dedup dataDup [segNYC, segNYC] [locNYC, locNYC] rfl rfl).1,
   (c4_order_and_no_dedup dataDup [segNYC, segNYC] [locNYC, locNYC] rfl rfl).2⟩

/-- C5: a missing or unparseable timestamp never affects whether a visit is
included — the startTime argument is copied verbatim (so an absent field
becomes the null-like `none`) and inclusion is unchanged across startTime
values; downstream, the year filter excludes records with a null/falsy
startTime and records whose timestamp fails the date conversion, while the
unfiltered (spatial) marker list keeps every record.  The code stores no
`endTime` field at all; reading one yields `undefined`. -/
theorem c5_null_time_records :
    (∀ visit st, processVisit visit st =
      Except.map (Option.map (fun loc => { loc with startTime := st }))
        (processVisit visit none)) ∧
    (∀ seg loc, processSegment seg = .ok (some loc) →
      loc.startTime = propGet seg "startTime") ∧
    (∀ getYear (y : ℤ) locs (loc : Location), loc.startTime = none →
      loc ∉ renderList getYear (some y) locs) ∧
    (∀ getYear (y : ℤ) locs (loc : Location) t, loc.startTime = some t →
      getYear t = none → loc ∉ renderList getYear (some y) locs) ∧
    (∀ getYear locs (loc : Location), loc ∈ locs → loc ∈ renderList getYear none locs) := by
  refine ⟨processVisit_startTime, ?_, ?_, ?_, ?_⟩
  · intro seg loc h
    unfold processSegment at h
    cases hn : isNull seg with
    | true => rw [hn] at h; exact nomatch h
    | false =>
      rw [hn] at h
      cases hv : truthyProp seg "visit" with
      | none => rw [hv] at h; exact nomatch h
      | some visit =>
        rw [hv] at h
        exact processVisit_ok_startTime visit (propGet seg "startTime") loc h
  · intro getYear y locs loc hst hmem
    simp only [renderList] at hmem
    have hk := (List.mem_filter.mp hmem).2
    rw [yearKeeps, hst] at hk
    exact nomatch hk
  · intro getYear y locs loc t hst hgy hmem
    simp only [renderList] at hmem
    have hk := (List.mem_filter.mp hmem).2
    rw [yearKeeps, hst] at hk
    have hk2 : (truthy t && (getYear t == some y)) = true := hk
    rw [hgy] at hk2
    simp at hk2
  · intro getYear locs loc h
    exact h

/-- C5 witness: a qualifying segment without a startTime field yields a
record with null startTime; that record is excluded once a year is selected
and kept on the unfiltered map. -/
theorem c5_witness :
    locNYC.startTime = propGet segNYC "startTime" ∧
    locNYC ∉ renderList noYear (some 2023) [locNYC] ∧
    locNYC ∈ renderList noYear none [locNYC] :=
  ⟨c5_null_time_records.2.1 segNYC locNYC rfl,
   c5_null_time_records.2.2.1 noYear 2023 [locNYC] locNYC rfl,
   c5_null_time_records.2.2.2.2 noYear [locNYC] locNYC (List.mem_cons_self _ _)⟩

/-- C10 counterexample: an export whose segment list contains `null` aborts
the whole walk with a type error instead of skipping that segment, so no
visit list at all is produced. -/
theorem c10_counterexample :
    processTimelineData dataNullSeg = .error .typeError ∧
    ∀ locs, processTimelineData dataNullSeg ≠ .ok locs :=
  ⟨rfl, fun _ h => nomatch h⟩

/-- C10 amended: every emitted record carries the numeric pair its segment's
two-part coordinate parse produced (records exist only through that parse);
a non-null segment with a missing/falsy field chain is skipped without
aborting; but a `null` segment — and a truthy non-string `latLng` — throws a
type error that aborts processing. -/
theorem c10_amended_invariant :
    (∀ seg loc, processSegment seg = .ok (some loc) →
      ∃ s, chainOf seg = .strVal s ∧ parsePair s = some (loc.lat, loc.lng)) ∧
    (∀ seg, isNull seg = false → chainOf seg = .missing →
      processSegment seg = .ok none) ∧
    (∀ seg, isNull seg = false → chainOf seg = .nonString →
      processSegment seg = .error .typeError) ∧
    processSegment Json.null = .error .typeError := by
  refine ⟨?_, ?_, ?_, rfl⟩
  · intro seg loc h
    cases hn : isNull seg with
    | true =>
      unfold processSegment at h
      rw [hn] at h
      exact nomatch h
    | false =>
      cases hc : chainOf seg with
      | missing => rw [processSegment_of_missing seg hn hc] at h; simp at h
      | nonString => rw [processSegment_of_nonString seg hn hc] at h; exact nomatch h
      | strVal s =>
        rw [processSegment_of_strVal seg s hn hc] at h
        cases hp : parsePair s with
        | none => rw [hp] at h; simp at h
        | some p =>
          cases p with | mk la ln =>
          rw [hp] at h
          injection h with h1
          injection h1 with h2
          subst h2
          exact ⟨s, rfl, hp⟩
  · intro seg hn hc
    exact processSegment_of_missing seg hn hc
  · intro seg hn hc
    exact processSegment_of_nonString seg hn hc

/-- C10 witness: the record of a well-formed segment comes from its two-part
parse; a chain-less object segment is skipped quietly; a truthy non-string
coordinate throws. -/
theorem c10_amended_witness :
    (∃ s, chainOf segNYC = .strVal s ∧ parsePair s = some ((40 : ℚ), (75 : ℚ))) ∧
    processSegment (Json.obj []) = .ok none ∧
    processSegment segNonStr = .error .typeError :=
  ⟨c10_amended_invariant.1 segNYC locNYC rfl,
   c10_amended_invariant.2.1 (Json.obj []) rfl rfl,
   c10_amended_invariant.2.2.1 segNonStr rfl rfl⟩

/-- C3: an export with zero segments (empty, absent or falsy segment list)
analyzes without any error to the empty visit list, zero places, zero
countries, zero total distance and a zero carbon estimate. -/
theorem c3_empty_export (resolve : Coord → Option String) (data : Json)
    (h : getSegments data = .ok []) :
    analyze resolve data = .ok ([], [], aggregate resolve [] []) ∧
    (aggregate resolve [] []).totalDistance = 0 ∧
    (aggregate resolve [] []).placeCount = 0 ∧
    (aggregate resolve [] []).countryCount = 0 ∧
    (aggregate resolve [] []).carbonKg = 0 := by
  refine ⟨?_, rfl, rfl, rfl, ?_⟩
  · unfold analyze
    rw [h]
    rfl
  · show totalDistanceOf [] * emissionsFactor = 0
    simp [totalDistanceOf]

/-- C3 witness: the empty-object export. -/
theorem c3_witness :
    analyze resolveNone (Json.obj []) = .ok ([], [], aggregate resolveNone [] []) ∧
    (aggregate resolveNone [] []).totalDistance = 0 ∧
    (aggregate resolveNone [] []).placeCount = 0 ∧
    (aggregate resolveNone [] []).countryCount = 0 ∧
    (aggregate resolveNone [] []).carbonKg = 0 :=
  c3_empty_export resolveNone (Json.obj []) rfl

/-- The haversine term vanishes on the diagonal. -/
lemma hav_self (a : Coord) : hav a a = 0 := by
  unfold hav toRad
  simp

/-- The distance of a coordinate to itself is zero. -/
lemma haversineDist_self (a : Coord) : haversineDist a a = 0 := by
  unfold haversineDist
  rw [hav_self]
  simp

/-- The haversine term is symmetric. -/
lemma hav_symm (a b : Coord) : hav a b = hav b a := by
  unfold hav
  have h1 : ∀ x y : ℝ, Real.sin (toRad (x - y) / 2) ^ 2 = Real.sin (toRad (y - x) / 2) ^ 2 := by
    intro x y
    have h : toRad (x - y) / 2 = -(toRad (y - x) / 2) := by unfold toRad; ring
    rw [h, Real.sin_neg]
    ring
  rw [h1 b.lat a.lat, h1 b.lng a.lng]
  ring

/-- The haversine distance is symmetric. -/
lemma haversineDist_symm (a b : Coord) : haversineDist a b = haversineDist b a := by
  unfold haversineDist
  rw [hav_symm]

/-- On the equator the haversine term reduces to the longitude part. -/
lemma hav_equator (x y : ℝ) :
    hav ⟨0, x⟩ ⟨0, y⟩ = Real.sin (toRad (y - x) / 2) ^ 2 := by
  unfold hav toRad
  simp

/-- On the equator, for a small nonnegative eastward offset, the haversine
distance is exactly the arc length. -/
lemma haversineDist_equator (x y : ℝ) (h0 : 0 ≤ toRad (y - x) / 2)
    (h1 : toRad (y - x) / 2 ≤ Real.pi / 2) :
    haversineDist ⟨0, x⟩ ⟨0, y⟩ = earthRadius * toRad (y - x) := by
  unfold haversineDist
  rw [hav_equator, Real.sqrt_sq_eq_abs,
    abs_of_nonneg (Real.sin_nonneg_of_nonneg_of_le_pi h0
      (le_trans h1 (by linarith [Real.pi_pos]))),
    Real.arcsin_sin (by linarith [Real.pi_pos]) h1]
  ring

/-- The eastward degree offset whose equatorial arc length is 60 meters. -/
noncomputable def degStep : ℝ := 10800 / (earthRadius * Real.pi)

/-- Converting multiples of the 60-meter step to radians. -/
lemma toRad_mul_degStep (k : ℝ) : toRad (k * degStep) = k * 60 / earthRadius := by
  unfold toRad degStep earthRadius
  have hp := Real.pi_ne_zero
  field_simp
  ring

/-- Equatorial distances across whole multiples of the 60-meter step. -/
lemma equator_multiple (x k : ℝ) (hk0 : 0 ≤ k) (hk1 : k ≤ 2) :
    haversineDist ⟨0, x⟩ ⟨0, x + k * degStep⟩ = 60 * k := by
  have e : (x + k * degStep) - x = k * degStep := by ring
  have h30 : toRad (k * degStep) = k * 60 / earthRadius := toRad_mul_degStep k
  have hR : (0:ℝ) < earthRadius := by unfold earthRadius; norm_num
  have h0 : 0 ≤ toRad ((x + k * degStep) - x) / 2 := by
    rw [e, h30]
    apply div_nonneg _ (by norm_num)
    exact div_nonneg (by linarith) hR.le
  have h1 : toRad ((x + k * degStep) - x) / 2 ≤ Real.pi / 2 := by
    rw [e, h30]
    have hπ := Real.pi_gt_three
    unfold earthRadius
    nlinarith
  rw [haversineDist_equator x (x + k * degStep) h0 h1, e, h30]
  field_simp
  ring

/-- Modelled from the spec: the three witness visits on the equator, 60
meters apart in sequence. -/
noncomputable def wA : Visit := ⟨0, 0, none⟩

/-- Second witness visit, 60 meters east of the first. -/
noncomputable def wB : Visit := ⟨0, degStep, none⟩

/-- Third witness visit, 120 meters east of the first. -/
noncomputable def wC : Visit := ⟨0, 2 * degStep, none⟩

/-- The first two witness visits are 60 meters apart. -/
lemma dist_wA_wB : haversineDist wA.coord wB.coord = 60 := by
  have h := equator_multiple 0 1 (by norm_num) (by norm_num)
  have e1 : (0:ℝ) + 1 * degStep = degStep := by ring
  rw [e1] at h
  rw [show (60:ℝ) * 1 = 60 by ring] at h
  exact h

/-- The second and third witness visits are 60 meters apart. -/
lemma dist_wB_wC : haversineDist wB.coord wC.coord = 60 := by
  have h := equator_multiple degStep 1 (by norm_num) (by norm_num)
  have e1 : degStep + 1 * degStep = 2 * degStep := by ring
  rw [e1] at h
  rw [show (60:ℝ) * 1 = 60 by ring] at h
  exact h

/-- The first and third witness visits are 120 meters apart. -/
lemma dist_wA_wC : haversineDist wA.coord wC.coord = 120 := by
  have h := equator_multiple 0 2 (by norm_num) (by norm_num)
  have e1 : (0:ℝ) + 2 * degStep = 2 * degStep := by ring
  rw [e1] at h
  rw [show (60:ℝ) * 2 = 120 by ring] at h
  exact h

/-- Identifier conflicts are symmetric. -/
lemma idConflict_symm (a b : Visit) : idConflict a b = idConflict b a := by
  unfold idConflict
  cases a.sourcePlaceId with
  | none => cases b.sourcePlaceId <;> rfl
  | some s =>
    cases b.sourcePlaceId with
    | none => rfl
    | some t =>
      show (s != t) = (t != s)
      by_cases h : s = t
      · subst h; rfl
      · rw [bne_iff_ne.mpr h, bne_iff_ne.mpr (Ne.symm h)]

/-- Visits within the proximity threshold and free of identifier conflicts
link directly. -/
lemma near_true_of_close (a b : Visit) (hc : idConflict a b = false)
    (h : haversineDist a.coord b.coord ≤ proximityThreshold) :
    nearVisit a b = true := by
  unfold nearVisit
  rw [hc]
  cases hs : sameId a b
  · simp only [Bool.false_or, Bool.not_false, Bool.true_and, decide_eq_true_eq]
    exact h
  · rfl

/-- Visits sharing a non-null source place identifier link directly,
whatever their distance. -/
lemma near_true_of_sameId (a b : Visit) (s : String) (ha : a.sourcePlaceId = some s)
    (hb : b.sourcePlaceId = some s) : nearVisit a b = true := by
  unfold nearVisit sameId
  rw [ha, hb]
  simp

/-- The inserted visit lands in some cluster of the merge step. -/
lemma mergeStep_mem_self (near : Visit → Visit → Bool) (v : Visit)
    (places : List (List Visit)) :
    ∃ p ∈ mergeStep near v places, v ∈ p := by
  induction places with
  | nil => exact ⟨[v], by simp [mergeStep], by simp⟩
  | cons hd ps ih =>
    cases hh : touches near v hd
    case true =>
      have hms : mergeStep near v (hd :: ps) =
          (hd ++ (ps.filter (touches near v)).flatten ++ [v]) ::
            ps.filter (fun q => !touches near v q) := by
        simp [mergeStep, hh]
      rw [hms]
      exact ⟨hd ++ (ps.filter (touches near v)).flatten ++ [v],
        List.mem_cons_self _ _, by simp⟩
    case false =>
      have hms : mergeStep near v (hd :: ps) = hd :: mergeStep near v ps := by
        simp [mergeStep, hh]
      rw [hms]
      obtain ⟨p, hp, hvp⟩ := ih
      exact ⟨p, List.mem_cons_of_mem _ hp, hvp⟩

/-- Every existing cluster survives the merge step inside some new cluster. -/
lemma mergeStep_subset (near : Visit → Visit → Bool) (v : Visit)
    (places : List (List Visit)) :
    ∀ p ∈ places, ∃ q ∈ mergeStep near v places, ∀ u ∈ p, u ∈ q := by
  induction places with
  | nil => intro p hp; exact absurd hp (List.not_mem_nil p)
  | cons hd ps ih =>
    intro p hp
    cases hh : touches near v hd
    case true =>
      have hms : mergeStep near v (hd :: ps) =
          (hd ++ (ps.filter (touches near v)).flatten ++ [v]) ::
            ps.filter (fun q => !touches near v q) := by
        simp [mergeStep, hh]
      rw [hms]
      rcases List.mem_cons.mp hp with rfl | hps
      · exact ⟨p ++ (ps.filter (touches near v)).flatten ++ [v],
          List.mem_cons_self _ _, fun u hu => by simp [hu]⟩
      · cases ht : touches near v p
        case true =>
          refine ⟨hd ++ (ps.filter (touches near v)).flatten ++ [v],
            List.mem_cons_self _ _, fun u hu => ?_⟩
          have hfl : u ∈ (ps.filter (touches near v)).flatten :=
            List.mem_flatten.mpr ⟨p, List.mem_filter.mpr ⟨hps, ht⟩, hu⟩
          simp [hfl]
        case false =>
          refine ⟨p, List.mem_cons_of_mem _ ?_, fun u hu => hu⟩
          exact List.mem_filter.mpr ⟨hps, by simp [ht]⟩
    case false =>
      have hms : mergeStep near v (hd :: ps) = hd :: mergeStep near v ps := by
        simp [mergeStep, hh]
      rw [hms]
      rcases List.mem_cons.mp hp with rfl | hps
      · exact ⟨p, List.mem_cons_self _ _, fun u hu => hu⟩
      · obtain ⟨q, hq, hsub⟩ := ih p hps
        exact ⟨q, List.mem_cons_of_mem _ hq, hsub⟩

/-- A member the inserted visit links to ends up in the same cluster as the
inserted visit. -/
lemma mergeStep_links (near : Visit → Visit → Bool) (v : Visit)
    (places : List (List Visit)) :
    ∀ p ∈ places, ∀ u ∈ p, near v u = true →
      ∃ q ∈ mergeStep near v places, v ∈ q ∧ u ∈ q := by
  induction places with
  | nil => intro p hp; exact absurd hp (List.not_mem_nil p)
  | cons hd ps ih =>
    intro p hp u hu hnear
    cases hh : touches near v hd
    case true =>
      have hms : mergeStep near v (hd :: ps) =
          (hd ++ (ps.filter (touches near v)).flatten ++ [v]) ::
            ps.filter (fun q => !touches near v q) := by
        simp [mergeStep, hh]
      rw [hms]
      refine ⟨hd ++ (ps.filter (touches near v)).flatten ++ [v],
        List.mem_cons_self _ _, by simp, ?_⟩
      rcases List.mem_cons.mp hp with rfl | hps
      · simp [hu]
      · have ht : touches near v p = true := by
          unfold touches
          exact List.any_eq_true.mpr ⟨u, hu, hnear⟩
        have hfl : u ∈ (ps.filter (touches near v)).flatten :=
          List.mem_flatten.mpr ⟨p, List.mem_filter.mpr ⟨hps, ht⟩, hu⟩
        simp [hfl]
    case false =>
      have hms : mergeStep near v (hd :: ps) = hd :: mergeStep near v ps := by
        simp [mergeStep, hh]
      rw [hms]
      rcases List.mem_cons.mp hp with rfl | hps
      · have ht : touches near v p = true := by
          unfold touches
          exact List.any_eq_true.mpr ⟨u, hu, hnear⟩
        rw [ht] at hh
        exact nomatch hh
      · obtain ⟨q, hq, hvq, huq⟩ := ih p hps u hu hnear
        exact ⟨q, List.mem_cons_of_mem _ hq, hvq, huq⟩

/-- Clustering a list extended by one visit is one merge step. -/
lemma dedupeWith_append_singleton (near : Visit → Visit → Bool)
    (vs : List Visit) (v : Visit) :
    dedupeWith near (vs ++ [v]) = mergeStep near v (dedupeWith near vs) := by
  unfold dedupeWith
  rw [List.foldl_append]
  rfl

/-- Every input visit is a member of some cluster. -/
lemma dedupeWith_mem (near : Visit → Visit → Bool) (a : Visit) :
    ∀ vs, a ∈ vs → ∃ p ∈ dedupeWith near vs, a ∈ p := by
  intro vs
  induction vs using List.reverseRecOn with
  | nil => intro ha; exact absurd ha (List.not_mem_nil a)
  | append_singleton us v ih =>
    intro ha
    rw [dedupeWith_append_singleton]
    rcases List.mem_append.mp ha with hus | hv
    · obtain ⟨p, hp, hap⟩ := ih hus
      obtain ⟨q, hq, hsub⟩ := mergeStep_subset near v (dedupeWith near us) p hp
      exact ⟨q, hq, hsub a hap⟩
    · have hav : a = v := by simpa using hv
      subst hav
      exact mergeStep_mem_self near a (dedupeWith near us)

/-- Two directly linked visits are clustered together (single-linkage puts
any directly linked pair in one component, so this also covers merges forced
through intermediate visits). -/
lemma dedupeWith_linked (near : Visit → Visit → Bool) (a b : Visit)
    (hab : near a b = true) (hba : near b a = true) :
    ∀ vs, a ∈ vs → b ∈ vs → ∃ p ∈ dedupeWith near vs, a ∈ p ∧ b ∈ p := by
  intro vs
  induction vs using List.reverseRecOn with
  | nil => intro ha; exact absurd ha (List.not_mem_nil a)
  | append_singleton us v ih =>
    intro ha hb
    rw [dedupeWith_append_singleton]
    rcases List.mem_append.mp ha with hau | hav
    · rcases List.mem_append.mp hb with hbu | hbv
      · obtain ⟨p, hp, hap, hbp⟩ := ih hau hbu
        obtain ⟨q, hq, hsub⟩ := mergeStep_subset near v (dedupeWith near us) p hp
        exact ⟨q, hq, hsub a hap, hsub b hbp⟩
      · have hbv2 : b = v := by simpa using hbv
        subst hbv2
        obtain ⟨p, hp, hap⟩ := dedupeWith_mem near a us hau
        obtain ⟨q, hq, hvq, haq⟩ := mergeStep_links near b (dedupeWith near us) p hp a hap hba
        exact ⟨q, hq, haq, hvq⟩
    · have hav2 : a = v := by simpa using hav
      subst hav2
      rcases List.mem_append.mp hb with hbu | hbv
      · obtain ⟨p, hp, hbp⟩ := dedupeWith_mem near b us hbu
        obtain ⟨q, hq, hvq, hbq⟩ := mergeStep_links near a (dedupeWith near us) p hp b hbp hab
        exact ⟨q, hq, hvq, hbq⟩
      · have hbv2 : b = a := by simpa using hbv
        obtain ⟨p, hp, hap⟩ := mergeStep_mem_self near a (dedupeWith near us)
        exact ⟨p, hp, hap, by rw [hbv2]; exact hap⟩

/-- C6: three visits whose consecutive distances are within the 100m
threshold merge into exactly one place, even when the outer pair exceeds the
threshold — single-linkage chains through the middle visit.  The proximity
link requires, per the merge rule, that the linking pairs carry no
`sourcePlaceId` conflict.  (The claim's illustrative exact distances
50m/50m/140m cannot coexist on a sphere, whose metric obeys the triangle
inequality, so the chain is stated through the threshold relations they were
chosen to exhibit.) -/
theorem c6_chain_merge (A B C : Visit)
    (hAB : haversineDist A.coord B.coord ≤ proximityThreshold)
    (hBC : haversineDist B.coord C.coord ≤ proximityThreshold)
    (hAC : proximityThreshold < haversineDist A.coord C.coord)
    (hcAB : idConflict A B = false)
    (hcBC : idConflict B C = false) :
    dedupe [A, B, C] = [mkPlace [A, B, C]] := by
  have hBA : nearVisit B A = true :=
    near_true_of_close B A (by rw [idConflict_symm]; exact hcAB)
      (by rw [haversineDist_symm]; exact hAB)
  have hCB : nearVisit C B = true :=
    near_true_of_close C B (by rw [idConflict_symm]; exact hcBC)
      (by rw [haversineDist_symm]; exact hBC)
  have h1 : mergeStep nearVisit B [[A]] = [[A, B]] := by
    simp [mergeStep, touches, hBA]
  have h2 : mergeStep nearVisit C [[A, B]] = [[A, B, C]] := by
    have ht : touches nearVisit C [A, B] = true := by
      simp [touches, hCB]
    simp [mergeStep, ht]
  unfold dedupe dedupeWith
  simp only [List.foldl_cons, List.foldl_nil]
  rw [show mergeStep nearVisit A [] = [[A]] from rfl, h1, h2]
  rfl

/-- C6 witness: identifier-less equatorial visits 60m, 60m apart in sequence
(outer pair 120m apart, beyond the threshold) merge into one place. -/
theorem c6_witness :
    haversineDist wA.coord wB.coord ≤ proximityThreshold ∧
    haversineDist wB.coord wC.coord ≤ proximityThreshold ∧
    proximityThreshold < haversineDist wA.coord wC.coord ∧
    idConflict wA wB = false ∧ idConflict wB wC = false ∧
    dedupe [wA, wB, wC] = [mkPlace [wA, wB, wC]] := by
  have h1 : haversineDist wA.coord wB.coord ≤ proximityThreshold := by
    rw [dist_wA_wB]
    unfold proximityThreshold
    norm_num
  have h2 : haversineDist wB.coord wC.coord ≤ proximityThreshold := by
    rw [dist_wB_wC]
    unfold proximityThreshold
    norm_num
  have h3 : proximityThreshold < haversineDist wA.coord wC.coord := by
    rw [dist_wA_wC]
    unfold proximityThreshold
    norm_num
  exact ⟨h1, h2, h3, rfl, rfl, c6_chain_merge wA wB wC h1 h2 h3 rfl rfl⟩

/-- C7: any two visits of an input that share a non-null source place
identifier are merged into the same place, whatever the distance between
their coordinates — the identifier link holds without consulting the
proximity threshold. -/
theorem c7_shared_id (vs : List Visit) (a b : Visit) (s : String)
    (ha : a ∈ vs) (hb : b ∈ vs)
    (hsa : a.sourcePlaceId = some s) (hsb : b.sourcePlaceId = some s) :
    ∃ pl ∈ dedupe vs, a ∈ pl.visits ∧ b ∈ pl.visits := by
  obtain ⟨p, hp, hap, hbp⟩ := dedupeWith_linked nearVisit a b
    (near_true_of_sameId a b s hsa hsb) (near_true_of_sameId b a s hsb hsa) vs ha hb
  exact ⟨mkPlace p, List.mem_map_of_mem mkPlace hp, hap, hbp⟩

/-- First C7 witness visit, at the origin with place identifier p1. -/
noncomputable def v7a : Visit := ⟨0, 0, some "p1"⟩

/-- Second C7 witness visit, about 5 km north, same identifier. -/
noncomputable def v7b : Visit := ⟨0.045, 0, some "p1"⟩

/-- C7 witness: the two identifier-sharing visits 5 km apart share a place. -/
theorem c7_witness :
    ∃ pl ∈ dedupe [v7a, v7b], v7a ∈ pl.visits ∧ v7b ∈ pl.visits :=
  c7_shared_id [v7a, v7b] v7a v7b "p1"
    (List.mem_cons_self _ _) (List.mem_cons_of_mem _ (List.mem_cons_self _ _)) rfl rfl

/-- C8 counterexample: the two coordinate pairs (90,0) and (90,180) — both
in range, both the north pole — are distinct yet at haversine distance zero,
refuting the claimed "zero only if equal". -/
theorem c8_counterexample :
    haversineDist ⟨90, 0⟩ ⟨90, 180⟩ = 0 ∧ Coord.mk 90 0 ≠ Coord.mk 90 180 := by
  constructor
  · unfold haversineDist hav
    have h1 : toRad 90 = Real.pi / 2 := by unfold toRad; ring
    have h2 : toRad ((90:ℝ) - 90) = 0 := by norm_num [toRad]
    show 2 * earthRadius * Real.arcsin (Real.sqrt
      (Real.sin (toRad ((90:ℝ) - 90) / 2) ^ 2 +
        Real.cos (toRad (90:ℝ)) * Real.cos (toRad (90:ℝ)) *
          Real.sin (toRad ((180:ℝ) - 0) / 2) ^ 2)) = 0
    rw [h2, h1, Real.cos_pi_div_two]
    simp
  · intro h
    injection h with h1 h2
    norm_num at h2

/-- C8 amended: the haversine distance vanishes on the diagonal and is
symmetric; the converse of the vanishing direction is false, since distinct
coordinate pairs can denote the same point of the sphere. -/
theorem c8_amended_props :
    (∀ a : Coord, haversineDist a a = 0) ∧
    (∀ a b : Coord, haversineDist a b = haversineDist b a) :=
  ⟨haversineDist_self, haversineDist_symm⟩

/-- C8 witness: the amended properties at concrete coordinates. -/
theorem c8_witness :
    haversineDist ⟨7, 11⟩ ⟨7, 11⟩ = 0 ∧
    haversineDist ⟨1, 2⟩ ⟨3, 4⟩ = haversineDist ⟨3, 4⟩ ⟨1, 2⟩ :=
  ⟨c8_amended_props.1 ⟨7, 11⟩, c8_amended_props.2 ⟨1, 2⟩ ⟨3, 4⟩⟩

/-- C9: the carbon estimate is always the total distance times the one fixed
emissions factor, and appending a movement of 1000 meters adds exactly 1000
meters to the total distance and exactly 1000 times the factor to the carbon
estimate. -/
theorem c9_carbon_linear (resolve : Coord → Option String)
    (ms : List MovementSegment) (ps : List Place) (m : MovementSegment)
    (hm : m.distanceMeters = 1000) :
    (aggregate resolve ms ps).carbonKg =
      (aggregate resolve ms ps).totalDistance * emissionsFactor ∧
    totalDistanceOf (ms ++ [m]) = totalDistanceOf ms + 1000 ∧
    (aggregate resolve (ms ++ [m]) ps).carbonKg =
      (aggregate resolve ms ps).carbonKg + 1000 * emissionsFactor := by
  have hsum : totalDistanceOf (ms ++ [m]) = totalDistanceOf ms + 1000 := by
    unfold totalDistanceOf
    rw [List.map_append, List.sum_append]
    simp [hm]
  refine ⟨rfl, hsum, ?_⟩
  show totalDistanceOf (ms ++ [m]) * emissionsFactor =
    totalDistanceOf ms * emissionsFactor + 1000 * emissionsFactor
  rw [hsum]
  ring

/-- A movement segment of exactly 1000 meters. -/
noncomputable def m1000 : MovementSegment := ⟨1000⟩

/-- C9 witness: the 1000-meter movement appended to the empty history. -/
theorem c9_witness :
    (aggregate resolveNone [] []).carbonKg =
      (aggregate resolveNone [] []).totalDistance * emissionsFactor ∧
    totalDistanceOf ([] ++ [m1000]) = totalDistanceOf [] + 1000 ∧
    (aggregate resolveNone ([] ++ [m1000]) []).carbonKg =
      (aggregate resolveNone [] []).carbonKg + 1000 * emissionsFactor :=
  c9_carbon_linear resolveNone [] [] m1000 rfl

end TravelRecap
